import Mathlib

/-!
Shallow embedding of `src/validator.py` (PPT schedule validator).

Pandas column operations are embedded per-cell: a missing value (NaN) in a
string column is `Option.none` before `astype(str)` turns it into the literal
string "nan"; numeric columns (`pd.to_numeric(..., errors='coerce')`) are
`Option ℚ` with `none` for NaN.  rapidfuzz scores (floats on the 0-100 scale)
are modelled as exact rationals: `fuzz.ratio` is the normalized InDel
similarity `200*LCS(a,b)/(|a|+|b|)` (100 when both strings are empty), and
`fuzz.token_sort_ratio` applies it after splitting each string on whitespace,
sorting the tokens and re-joining with single spaces.
-/

namespace PPT

/-- Python whitespace class `\s` (ASCII part): space, tab, newline, CR, FF, VT. -/
def isWsChar (c : Char) : Bool :=
  c = ' ' || c = '\t' || c = '\n' || c = '\r' || c = '\x0c' || c = '\x0b'

/-- Python `str.strip()`: drop leading and trailing whitespace. -/
def stripStr (s : String) : String :=
  String.mk (((s.toList.dropWhile isWsChar).reverse.dropWhile isWsChar).reverse)

/-- Python `str.lower()` (ASCII). -/
def lowerStr (s : String) : String :=
  String.mk (s.toList.map Char.toLower)

/-- `str.replace(a, b)` for single characters. -/
def replaceChar (a b : Char) (s : String) : String :=
  String.mk (s.toList.map (fun c => if c = a then b else c))

/-- Helper for collapsing whitespace runs; the flag records whether the
previous character was whitespace. -/
def collapseWsAux : Bool → List Char → List Char
  | _, [] => []
  | prevWs, c :: cs =>
    if isWsChar c then
      if prevWs then collapseWsAux true cs
      else ' ' :: collapseWsAux true cs
    else c :: collapseWsAux false cs

/-- `.str.replace(r"\s+", " ", regex=True)`: each whitespace run becomes one space. -/
def collapseWs (s : String) : String :=
  String.mk (collapseWsAux false s.toList)

/-- Helper for `str.split()`; `cur` holds the current token reversed. -/
def splitWsAux (cur : List Char) : List Char → List String
  | [] => if cur.isEmpty then [] else [String.mk cur.reverse]
  | c :: cs =>
    if isWsChar c then
      if cur.isEmpty then splitWsAux [] cs
      else String.mk cur.reverse :: splitWsAux [] cs
    else splitWsAux (c :: cur) cs

/-- Python `str.split()` with no argument: split on whitespace runs, no empties. -/
def splitWs (s : String) : List String :=
  splitWsAux [] s.toList

/-- Lexicographic code-point comparison of character lists — the order Python
uses to compare strings. -/
def listLtChars : List Char → List Char → Bool
  | [], [] => false
  | [], _ :: _ => true
  | _ :: _, [] => false
  | a :: as, b :: bs => if a < b then true else if b < a then false else listLtChars as bs

/-- Python string `<`: lexicographic by code point. -/
def strLt (a b : String) : Bool :=
  listLtChars a.toList b.toList

/-- Stable insertion of a string into a sorted list (equal keys keep order). -/
def insertSorted (s : String) : List String → List String
  | [] => [s]
  | x :: xs => if strLt s x then s :: x :: xs else x :: insertSorted s xs

/-- Stable sort of strings in code-point lexicographic order, matching the
output of Python `sorted` on a list of strings. -/
def sortStrings (l : List String) : List String :=
  l.foldl (fun acc s => insertSorted s acc) []

/-- Python `sep.join(list)`. -/
def pyJoin (sep : String) : List String → String
  | [] => ""
  | [s] => s
  | s :: rest => s ++ sep ++ pyJoin sep rest

/-- `" ".join(sorted(str(name).split()))` — the token-sorting lambda applied to
every clean name (validator.py lines 97 and 112), also the preprocessing step
of `fuzz.token_sort_ratio`. -/
def sortJoin (s : String) : String :=
  pyJoin " " (sortStrings (splitWs s))

/-- Helper for Python `str.title()`; the flag records whether the previous
character was alphabetic. -/
def pyTitleAux : Bool → List Char → List Char
  | _, [] => []
  | prev, c :: cs =>
    (if c.isAlpha then (if prev then c.toLower else c.toUpper) else c)
      :: pyTitleAux c.isAlpha cs

/-- Python `str.title()` (ASCII). -/
def pyTitle (s : String) : String :=
  String.mk (pyTitleAux false s.toList)

/-- Regex word character `\w` (ASCII): letters, digits, underscore. -/
def isWordChar (c : Char) : Bool :=
  c.isAlphanum || c = '_'

/-- `.str.replace(r"[^\w]", "", regex=True)`: keep only word characters. -/
def stripNonWord (s : String) : String :=
  String.mk (s.toList.filter isWordChar)

/-- `pandas astype(str)` on a possibly-missing cell: NaN prints as "nan". -/
def astStr : Option String → String
  | none => "nan"
  | some s => s

/-- List-of-chars version of `String.startsWith`. -/
def startsWithList : List Char → List Char → Bool
  | _, [] => true
  | [], _ :: _ => false
  | a :: as, b :: bs => a = b && startsWithList as bs

/-- Python substring containment `needle in hay`. -/
def containsList : List Char → List Char → Bool
  | [], nd => nd.isEmpty
  | h :: t, nd => startsWithList (h :: t) nd || containsList t nd

/-- `"ops" in str(scheme).lower()` (validator.py line 143). -/
def containsOps (s : String) : Bool :=
  containsList (lowerStr s).toList ['o', 'p', 's']

/-! ### rapidfuzz model -/

/-- Fuel-indexed longest common subsequence length; the fuel makes the
recursion structural so that the kernel can evaluate it.  Fuel
`x.length + y.length` always suffices. -/
def lcsF : Nat → List Char → List Char → Nat
  | 0, _, _ => 0
  | _ + 1, [], _ => 0
  | _ + 1, _ :: _, [] => 0
  | f + 1, a :: as, b :: bs =>
    if a = b then lcsF f as bs + 1
    else max (lcsF f as (b :: bs)) (lcsF f (a :: as) bs)

/-- Longest common subsequence length of two character lists. -/
def lcs (x y : List Char) : Nat :=
  lcsF (x.length + y.length) x y

/-!
Exact rational arithmetic, written through `Rat.divInt` so that the kernel can
evaluate it on concrete inputs; the bridge lemmas `qmul_eq`, `qsub_eq` and
`qabs_eq` below prove these are the ordinary field operations of `ℚ`.
-/

/-- Exact rational multiplication. -/
def qmul (a b : ℚ) : ℚ :=
  Rat.divInt (a.num * b.num) ((a.den : Int) * (b.den : Int))

/-- Exact rational subtraction. -/
def qsub (a b : ℚ) : ℚ :=
  Rat.divInt (a.num * (b.den : Int) - b.num * (a.den : Int)) ((a.den : Int) * (b.den : Int))

/-- Exact rational absolute value. -/
def qabs (a : ℚ) : ℚ :=
  if a.num < 0 then Rat.divInt (-a.num) (a.den : Int) else a

/-- `fuzz.ratio`: normalized InDel similarity on a 0-100 scale.
`dist = |x|+|y|-2*LCS`, `ratio = 100*(1 - dist/(|x|+|y|)) = 200*LCS/(|x|+|y|)`;
rapidfuzz returns 100 for two empty strings. -/
def indelRatio (x y : List Char) : ℚ :=
  if x.length + y.length = 0 then 100
  else Rat.divInt (200 * (lcs x y : Int)) ((x.length : Int) + (y.length : Int))

/-- `fuzz.token_sort_ratio`: split on whitespace, sort tokens, join with single
spaces, then take the InDel ratio. -/
def token_sort_ratio (a b : String) : ℚ :=
  indelRatio (sortJoin a).toList (sortJoin b).toList

/-- One step of the best-score scan: keep the current best, replacing it only
on a strictly higher score. -/
def extractStep (q : String) (acc : Option (String × ℚ)) (c : String) :
    Option (String × ℚ) :=
  let sc := token_sort_ratio q c
  match acc with
  | none => some (c, sc)
  | some (b, bs) => if bs < sc then some (c, sc) else some (b, bs)

/-- `process.extractOne(query, choices, scorer=fuzz.token_sort_ratio)`:
best-scoring choice, first one wins on ties, `none` for an empty choice list. -/
def extractOneBest (q : String) (choices : List String) : Option (String × ℚ) :=
  choices.foldl (extractStep q) none

/-! ### Rounding and number formatting -/

/-- Python `round(x, n)` ties: round-half-to-even on the scaled value. -/
def roundHalfEven (q : ℚ) : ℤ :=
  let f : ℤ := q.floor
  let r : ℚ := qsub q (f : ℚ)
  if r < mkRat 1 2 then f
  else if mkRat 1 2 < r then f + 1
  else if f % 2 = 0 then f else f + 1

/-- Python `round(x, 2)` modelled exactly on rationals. -/
def round2 (q : ℚ) : ℚ :=
  Rat.divInt (roundHalfEven (qmul q 100)) 100

/-- Rendering of a non-negative rational amount with two decimals, as the
f-string `{expected:.2f}` does for the expected contribution. -/
def formatQ2 (q : ℚ) : String :=
  let n : Nat := (qmul q 100).floor.toNat
  toString (n / 100) ++ "." ++ (if n % 100 < 10 then "0" else "") ++ toString (n % 100)

/-- A pandas cell value used as a lookup key: either a string cell (string
columns are never NaN after `astype(str)`) or a numeric cell where `none` is
NaN.  `pd.isna` is true only for the numeric NaN; equality comparison with NaN
is always false. -/
inductive KV where
  | str (s : String)
  | num (x : Option ℚ)
deriving Repr, DecidableEq

def KV.isna : KV → Bool
  | .str _ => false
  | .num none => true
  | .num (some _) => false

def KV.keq : KV → KV → Bool
  | .str a, .str b => a = b
  | .num (some a), .num (some b) => a = b
  | .num _, .num _ => false
  | .str _, .num _ => false
  | .num _, .str _ => false

/-! ### Data model

A registry entry ("system dump" row) after the preparation of validator.py
lines 94-101: `clean_name` built from the name parts, sorted tokens; `NIA
Number` and `SSNIT Number` stripped to word characters (a missing value is the
string "nan"); `Contact` numeric with NaN as `none`. -/

structure RegEntry where
  clean_name : String
  nia : String
  ssnit : String
  contact : Option ℚ
  schemeNumber : String
deriving Repr, DecidableEq

/-- A schedule row after the preparation of validator.py lines 105-120:
normalized clean name, word-character-stripped identifiers, numeric contact,
salary and contribution.  `memberName` is the raw `Member Name` cell: the
source never stringifies that column (only the derived `clean_name`), so an
Excel cell that held a number stays numeric, and the final sort compares the
raw cells. -/
structure Row where
  memberName : KV
  clean_name : String
  scheme : String
  nia : String
  ssnit : String
  contact : Option ℚ
  salary : Option ℚ
  tier2 : Option ℚ
deriving Repr, DecidableEq

/-- The annotated output row: the accumulated status tags, the joined
`Validation Status` string, the `Match Type`, and the possibly-overwritten
scheme number. -/
structure RowResult where
  memberName : KV
  status : List String
  validationStatus : String
  matchType : String
  schemeOut : String
deriving Repr, DecidableEq

/-! ### Normalization pipeline (validator.py lines 6-16 and 94-120) -/

/-- `clean_name` (validator.py lines 6-10) applied to one cell:
`astype(str)`, strip, lower, '.' and ',' to spaces, collapse whitespace. -/
def clean_name (cell : Option String) : String :=
  collapseWs (replaceChar ',' ' ' (replaceChar '.' ' ' (lowerStr (stripStr (astStr cell)))))

/-- `build_full_name` (validator.py lines 12-16) applied to one record:
`fillna('')`, join first/middle/last with spaces, strip, collapse whitespace. -/
def build_full_name (first middle last : Option String) : String :=
  collapseWs (stripStr (first.getD "" ++ " " ++ middle.getD "" ++ " " ++ last.getD ""))

/-- The full schedule-side name normalization (validator.py lines 111-112):
`clean_name` then token sorting. -/
def sched_clean_name (cell : Option String) : String :=
  sortJoin (clean_name cell)

/-- The full registry-side name normalization (validator.py lines 96-97). -/
def reg_clean_name (first middle last : Option String) : String :=
  sortJoin (clean_name (some (build_full_name first middle last)))

/-- Identifier normalization (validator.py lines 98-99 and 113-115):
`astype(str)`, strip, drop non-word characters. -/
def norm_id (cell : Option String) : String :=
  stripNonWord (stripStr (astStr cell))

/-! ### Engine (validator.py lines 18-72 and 122-205) -/

def strict_threshold : ℚ := 85

def loose_threshold : ℚ := 50

/-- `find_and_validate_match` (validator.py lines 18-72): skip if the key
value is NaN, otherwise take the first registry row whose key column equals
the key value, and accept it when the token-sort name similarity reaches the
threshold. -/
def find_and_validate_match (df : List RegEntry) (keyOf : RegEntry → KV)
    (keyVal : KV) (inputName : String) (threshold : ℚ) :
    Option (RegEntry × ℚ) :=
  if keyVal.isna then none
  else
    match df.find? (fun e => KV.keq (keyOf e) keyVal) with
    | some dbRow =>
      let score := token_sort_ratio inputName dbRow.clean_name
      if threshold ≤ score then some (dbRow, score) else none
    | none => none

/-!
Status strings copied verbatim from validator.py (the file stores the marker
glyphs exactly as they appear in the source).  Each f-string is split into a
named constant head plus its interpolated parts.
-/

def missingTag : String := "‚ùå FLAG: Missing basic salary or 5% contribution"

def rangeTag : String :=
  "‚ùå FLAG: Basic salary not within statutory range (GHS 539.80 - 61,000)"

def contribHead : String := "‚ùå FLAG: Incorrect 5% contribution (expected GHS "

def contribTag (expected : ℚ) : String :=
  contribHead ++ formatQ2 expected ++ ")"

def validDirectTag : String := "‚úÖ VALID: Member matched with scheme ID and name"

def schemeBelongsHead : String :=
  "‚ö†Ô∏è WARNING: Incorrect scheme number assignment. Assigned scheme number, "

def schemeBelongsTag (scheme dbName : String) : String :=
  schemeBelongsHead ++ scheme ++ ", belongs to " ++ pyTitle dbName

def schemeNoMatchHead : String := "‚ö†Ô∏è WARNING: No match for Scheme No., "

def schemeNoMatchTag (scheme : String) : String :=
  schemeNoMatchHead ++ scheme ++ ", in the selected scheme\x27s database"

def autoMatchHead : String := "‚úÖ VALID: Scheme ID auto-matched and populated using ("

def autoMatchTag (idType matchedName : String) : String :=
  autoMatchHead ++ idType ++ " match). Matched name: " ++ pyTitle matchedName

def fuzzyHead : String := "üö´ INFO: Scheme ID filled via fuzzy name. Matched: "

def fuzzyTag (matchedName : String) (score : ℚ) : String :=
  fuzzyHead ++ matchedName ++ " Fuzzy score = " ++ formatQ2 (round2 score) ++ "%"

def noticeTag : String := "üü° NOTICE: No match found in system (likely unregistered member)"

def nameMismatchWarnHead : String := "‚ö†Ô∏è *Name mismatch with matched record "

def nameMismatchWarnTag (score : ℚ) : String :=
  nameMismatchWarnHead ++ formatQ2 (round2 score) ++ "%"

/-- Direct scheme match (validator.py lines 151-168).  Returns the status tags
appended so far, the matched registry row (if confirmed), the match type, and
the `scheme_mismatch` flag. -/
def directMatch (scheme_df : List RegEntry) (r : Row) :
    List String × Option RegEntry × String × Bool :=
  if r.scheme ≠ "" && r.scheme.length = 13 && startsWithList r.scheme.toList "1010".toList then
    match scheme_df.find? (fun e => e.schemeNumber = r.scheme) with
    | some e =>
      let similarity := token_sort_ratio r.clean_name e.clean_name
      if loose_threshold ≤ similarity then
        ([validDirectTag], some e, "Direct Scheme", false)
      else
        ([schemeBelongsTag r.scheme e.clean_name], none, "", true)
    | none => ([schemeNoMatchTag r.scheme], none, "", true)
  else ([], none, "", true)

/-- ID-based fallback loop (validator.py lines 172-179): Ghana Card, then
SSNIT, then Contact, stopping at the first accepted match. -/
def fallbackID (scheme_df : List RegEntry) (r : Row) : Option (String × RegEntry × ℚ) :=
  match find_and_validate_match scheme_df (fun e => .str e.nia) (.str r.nia)
      r.clean_name strict_threshold with
  | some (e, sc) => some ("Ghana Card", e, sc)
  | none =>
    match find_and_validate_match scheme_df (fun e => .str e.ssnit) (.str r.ssnit)
        r.clean_name strict_threshold with
    | some (e, sc) => some ("SSNIT", e, sc)
    | none =>
      match find_and_validate_match scheme_df (fun e => .num e.contact) (.num r.contact)
          r.clean_name strict_threshold with
      | some (e, sc) => some ("Contact", e, sc)
      | none => none

/-- Fuzzy name fallback (validator.py lines 182-194).  Returns appended
status tags, matched row, match type and scheme-number overwrite. -/
def fuzzyName (filtered_df : List RegEntry) (r : Row) :
    List String × Option RegEntry × String × Option String :=
  match extractOneBest r.clean_name (filtered_df.map (fun e => e.clean_name)) with
  | some (matchedName, score) =>
    if strict_threshold ≤ score then
      match filtered_df.find? (fun e => e.clean_name = matchedName) with
      | some e => ([fuzzyTag matchedName score], some e, "Fuzzy Name", some e.schemeNumber)
      | none => ([noticeTag], none, "", none)
    else ([noticeTag], none, "", none)
  | none => ([noticeTag], none, "", none)

/-- Append the trailing name-mismatch warning (validator.py lines 196-198)
and build the output row from the accumulated state. -/
def finishRow (r : Row) (st : List String) (matched : Option RegEntry)
    (matchType schemeOut : String) : RowResult :=
  let finalStatus :=
    match matched with
    | some e =>
      let s := token_sort_ratio r.clean_name e.clean_name
      if s < loose_threshold then st ++ [nameMismatchWarnTag s] else st
    | none => st
  { memberName := r.memberName
    status := finalStatus
    validationStatus := pyJoin "; " finalStatus
    matchType := matchType
    schemeOut := schemeOut }

/-- Step 2 plus the trailing name-mismatch warning (validator.py lines
147-201) for a row that passed the business checks.  On a failed fuzzy
fallback the match type keeps the value it had after the direct step, exactly
as the Python loop leaves `match_type` untouched. -/
def resolveRow (scheme_df filtered_df : List RegEntry) (r : Row) : RowResult :=
  match directMatch scheme_df r with
  | (st1, m1, mt1, mismatch) =>
    if mismatch && m1.isNone then
      match fallbackID scheme_df r with
      | some (idType, e, _) =>
        finishRow r (st1 ++ [autoMatchTag idType e.clean_name]) (some e) idType e.schemeNumber
      | none =>
        match fuzzyName filtered_df r with
        | (stf, some e, mtf, sof) =>
          finishRow r (st1 ++ stf) (some e) mtf (sof.getD r.scheme)
        | (stf, none, _, sof) =>
          finishRow r (st1 ++ stf) none mt1 (sof.getD r.scheme)
    else finishRow r st1 m1 mt1 r.scheme

/-- A terminal business-rule flag: the status cell is set to the single tag
and the row is finalized (`continue`). -/
def flagRow (tag : String) (r : Row) : RowResult :=
  { memberName := r.memberName
    status := [tag]
    validationStatus := tag
    matchType := ""
    schemeOut := r.scheme }

/-- One iteration of the main loop (validator.py lines 122-201). -/
def validateRow (scheme_df filtered_df : List RegEntry) (r : Row) : RowResult :=
  match r.salary, r.tier2 with
  | none, _ => flagRow missingTag r
  | some _, none => flagRow missingTag r
  | some salary, some tier2 =>
    if mkRat 5398 10 ≤ salary ∧ salary ≤ 61000 then
      let expected := round2 (qmul salary (mkRat 5 100))
      if mkRat 1 2 < qabs (qsub (round2 tier2) expected) ∧ containsOps r.scheme then
        flagRow (contribTag expected) r
      else resolveRow scheme_df filtered_df r
    else flagRow rangeTag r

/-- `fillna("")` (validator.py line 205) applied to one raw cell: NaN becomes
the empty string, every other value is kept as it is. -/
def fillnaCell : KV → KV
  | .num none => .str ""
  | c => c

/-- Python `<` between two object cells, as the final sort compares member
names: strings lexicographically, numbers numerically (a NaN comparison is
False), while comparing a string with a number raises TypeError — modelled as
`none`. -/
def cellLt : KV → KV → Option Bool
  | .str a, .str b => some (strLt a b)
  | .num (some x), .num (some y) => some (decide (x < y))
  | .num _, .num _ => some false
  | .str _, .num _ => none
  | .num _, .str _ => none

/-- Sorted insertion by (member name, validation status); `none` propagates
the TypeError raised on a cross-type name comparison. -/
def insertResult (x : RowResult) : List RowResult → Option (List RowResult)
  | [] => some [x]
  | y :: ys =>
    match cellLt x.memberName y.memberName with
    | none => none
    | some lt =>
      if lt || (x.memberName = y.memberName && strLt x.validationStatus y.validationStatus) then
        some (x :: y :: ys)
      else
        match insertResult x ys with
        | none => none
        | some rest => some (y :: rest)

/-- The final `fillna("").sort_values(by=["Member Name", "Validation Status"])`
of validator.py line 205: fill missing cells, then sort by member name and
status; `none` is the TypeError that aborts the batch when one member-name
cell is numeric and another is a string (tie order within equal keys is not a
correctness property). -/
def sortResults (l : List RowResult) : Option (List RowResult) :=
  (l.map (fun res => { res with memberName := fillnaCell res.memberName })).foldl
    (fun acc x => acc.bind (insertResult x)) (some [])

/-- `validate_schedule` on prepared rows: annotate every row, then sort; the
result is `none` when the final sort raises. -/
def validate_schedule (scheme_df filtered_df : List RegEntry) (rows : List Row) :
    Option (List RowResult) :=
  sortResults (rows.map (validateRow scheme_df filtered_df))

/-! ### Concrete evaluation data -/

/-- Registry entry with a direct-matchable scheme number. -/
def exC1Reg : RegEntry :=
  { clean_name := "doe john", nia := "A1", ssnit := "B1", contact := none
    schemeNumber := "1010000000001" }

/-- Row with a matchable scheme number but an out-of-range salary. -/
def exC1Row : Row :=
  { memberName := KV.str "John Doe", clean_name := "doe john", scheme := "1010000000001"
    nia := "A1", ssnit := "B1", contact := none, salary := some 100, tier2 := some 50 }

/-- Registry entry found by the Ghana Card (NIA) lookup. -/
def exC2RegN : RegEntry :=
  { clean_name := "doe john", nia := "GC123", ssnit := "nope1", contact := none
    schemeNumber := "2020111111111" }

/-- A different registry entry found by the Contact lookup. -/
def exC2RegC : RegEntry :=
  { clean_name := "doe john", nia := "other", ssnit := "nope2", contact := some 244000001
    schemeNumber := "3030222222222" }

def exC2Reg : List RegEntry := [exC2RegN, exC2RegC]

/-- Row whose NIA and contact both resolve, to two different entries. -/
def exC2Row : Row :=
  { memberName := KV.str "John Doe", clean_name := "doe john", scheme := ""
    nia := "GC123", ssnit := "ZZZ", contact := some 244000001
    salary := some 1000, tier2 := some 50 }

/-- Same row with a missing salary. -/
def exC2RowX : Row := { exC2Row with salary := none }

def exC3Reg : RegEntry :=
  { clean_name := "doe john", nia := "QQ", ssnit := "WW", contact := none
    schemeNumber := "1010000000001" }

def exC3Row : Row :=
  { memberName := KV.str "John Doe", clean_name := "doe john", scheme := "1010000000001"
    nia := "nan", ssnit := "nan", contact := none, salary := some 1000, tier2 := some 50 }

/-- Same row with a missing salary. -/
def exC3RowX : Row := { exC3Row with salary := none }

def exC4Row : Row :=
  { memberName := KV.str "John Doe", clean_name := "doe john", scheme := "1010000000001"
    nia := "A1", ssnit := "B1", contact := none, salary := none, tier2 := some 50 }

/-- Registry entry whose NIA cell was blank: normalization leaves "". -/
def exC5RegBlank : RegEntry :=
  { clean_name := "doe john", nia := norm_id (some ""), ssnit := "sx", contact := none
    schemeNumber := "5055000000001" }

/-- Schedule row whose NIA cell was blank. -/
def exC5RowBlank : Row :=
  { memberName := KV.str "John Doe", clean_name := "doe john", scheme := "nan"
    nia := norm_id (some ""), ssnit := "yy", contact := none
    salary := some 1000, tier2 := some 50 }

/-- Registry entry whose NIA cell was missing: normalization leaves "nan". -/
def exC5RegNan : RegEntry :=
  { clean_name := "doe john", nia := norm_id none, ssnit := "sz", contact := none
    schemeNumber := "5055000000002" }

/-- Schedule row whose NIA cell was missing. -/
def exC5RowNan : Row :=
  { memberName := KV.str "John Doe", clean_name := "doe john", scheme := "nan"
    nia := norm_id none, ssnit := "ww", contact := none
    salary := some 1000, tier2 := some 50 }

/-- Salary 10000 with reported contribution 500.00, scheme containing "ops". -/
def exC6Row500 : Row :=
  { memberName := KV.str "Ama", clean_name := "ama", scheme := "OPS"
    nia := "nan", ssnit := "nan", contact := none
    salary := some 10000, tier2 := some 500 }

/-- Salary 10000 with reported contribution 450.00, scheme containing "ops". -/
def exC6Row450 : Row := { exC6Row500 with tier2 := some 450 }

/-- Salary 10000 with reported contribution 450.00 and a scheme number that
does not contain "ops". -/
def exC6RowX : Row :=
  { exC6Row500 with tier2 := some 450, scheme := "1010000000001" }

/-- Registry entry whose three name parts are all missing: the normalized
name is the empty string. -/
def exC7Reg : RegEntry :=
  { clean_name := reg_clean_name none none none, nia := "GHA1", ssnit := "s7"
    contact := none, schemeNumber := "1010999999999" }

/-- Schedule row whose member name is whitespace only: the normalized name is
the empty string. -/
def exC7Row : Row :=
  { memberName := KV.str "  ", clean_name := sched_clean_name (some "  "), scheme := ""
    nia := "GHA1", ssnit := "t7", contact := none
    salary := some 1000, tier2 := some 50 }

/-- Row with a missing salary and a string member name. -/
def exC9Row : Row :=
  { memberName := KV.str "Kofi", clean_name := "kofi", scheme := ""
    nia := "nan", ssnit := "nan", contact := none, salary := none, tier2 := none }

/-- Row with a missing salary whose Member Name cell held the number 5: the
source never stringifies that column, so the cell stays numeric. -/
def exC9RowNum : Row :=
  { memberName := KV.num (some 5), clean_name := "5", scheme := ""
    nia := "nan", ssnit := "nan", contact := none, salary := none, tier2 := none }

/-- Row resolved through a direct scheme match, for the no-warning witness. -/
def exC10Row : Row :=
  { memberName := KV.str "John Doe", clean_name := "doe john", scheme := "1010000000001"
    nia := "A1", ssnit := "B1", contact := none, salary := some 1000, tier2 := some 50 }

/-! ### Arithmetic bridge lemmas -/

theorem qmul_eq (a b : ℚ) : qmul a b = a * b := by
  unfold qmul
  rw [Rat.divInt_eq_div]
  push_cast
  rw [← div_mul_div_comm, Rat.num_div_den, Rat.num_div_den]

theorem qsub_eq (a b : ℚ) : qsub a b = a - b := by
  unfold qsub
  rw [Rat.divInt_eq_div]
  push_cast
  have ha : ((a.den : ℚ)) ≠ 0 := Nat.cast_ne_zero.mpr a.den_nz
  have hb : ((b.den : ℚ)) ≠ 0 := Nat.cast_ne_zero.mpr b.den_nz
  conv_rhs => rw [← Rat.num_div_den a, ← Rat.num_div_den b]
  rw [div_sub_div _ _ ha hb]
  ring_nf

theorem qabs_eq (a : ℚ) : qabs a = |a| := by
  unfold qabs
  split
  · next h =>
    have hneg : a < 0 := by
      by_contra hc
      exact absurd (Rat.num_nonneg.mpr (not_lt.mp hc)) (not_le.mpr h)
    rw [abs_of_neg hneg, Rat.divInt_eq_div]
    push_cast
    rw [neg_div, Rat.num_div_den]
  · next h =>
    have : (0 : ℚ) ≤ a := Rat.num_nonneg.mp (not_lt.mp h)
    rw [abs_of_nonneg this]

/-! ### Longest-common-subsequence lemmas -/

theorem lcsF_comm (f : Nat) : ∀ x y : List Char, lcsF f x y = lcsF f y x := by
  induction f with
  | zero => intro x y; rfl
  | succ f ih =>
    intro x y
    cases x with
    | nil => cases y <;> rfl
    | cons a as =>
      cases y with
      | nil => rfl
      | cons b bs =>
        by_cases h : a = b
        · subst h
          simp only [lcsF, eq_self_iff_true, if_true]
          rw [ih]
        · have h' : ¬ b = a := fun e => h e.symm
          simp only [lcsF, if_neg h, if_neg h']
          rw [ih as (b :: bs), ih (a :: as) bs, Nat.max_comm]

theorem lcs_comm (x y : List Char) : lcs x y = lcs y x := by
  unfold lcs
  rw [Nat.add_comm]
  exact lcsF_comm _ x y

theorem lcsF_self (l : List Char) : ∀ f : Nat, l.length ≤ f → lcsF f l l = l.length := by
  induction l with
  | nil => intro f _; cases f <;> rfl
  | cons a t ih =>
    intro f hf
    cases f with
    | zero => simp at hf
    | succ f =>
      have ht : t.length ≤ f := Nat.succ_le_succ_iff.mp (by simpa using hf)
      simp only [lcsF, eq_self_iff_true, if_true, List.length_cons, ih f ht]

theorem lcs_self (l : List Char) : lcs l l = l.length :=
  lcsF_self l _ (Nat.le_add_right _ _)

/-! ### Similarity-score lemmas -/

theorem indelRatio_comm (x y : List Char) : indelRatio x y = indelRatio y x := by
  unfold indelRatio
  rw [lcs_comm, Nat.add_comm x.length y.length, Int.add_comm ((x.length : Int)) ((y.length : Int))]

theorem indelRatio_self (x : List Char) : indelRatio x x = 100 := by
  unfold indelRatio
  split
  · rfl
  · next h =>
    have hx : x.length ≠ 0 := fun e => h (by rw [e])
    have hq : ((x.length : ℚ)) ≠ 0 := Nat.cast_ne_zero.mpr hx
    rw [lcs_self, Rat.divInt_eq_div]
    push_cast
    field_simp
    ring

/-- `fuzz.token_sort_ratio` is symmetric. -/
theorem token_sort_ratio_comm (a b : String) :
    token_sort_ratio a b = token_sort_ratio b a :=
  indelRatio_comm _ _

/-- Two strings with the same sorted tokens score 100. -/
theorem token_sort_ratio_eq_100 (a b : String) (h : sortJoin a = sortJoin b) :
    token_sort_ratio a b = 100 := by
  unfold token_sort_ratio
  rw [h]
  exact indelRatio_self _

/-! ### Order lemmas for the token sort -/

theorem listLtChars_asymm : ∀ x y : List Char,
    listLtChars x y = true → listLtChars y x = false := by
  intro x
  induction x with
  | nil =>
    intro y h
    cases y with
    | nil => simp [listLtChars] at h
    | cons b bs => rfl
  | cons a as ih =>
    intro y h
    cases y with
    | nil => simp [listLtChars] at h
    | cons b bs =>
      unfold listLtChars at h ⊢
      by_cases hab : a < b
      · rw [if_neg (lt_asymm hab), if_pos hab]
      · rw [if_neg hab] at h
        by_cases hba : b < a
        · rw [if_pos hba] at h
          exact absurd h (by simp)
        · rw [if_neg hba] at h
          rw [if_neg hba, if_neg hab]
          exact ih bs h

theorem listLtChars_antisymm : ∀ x y : List Char,
    listLtChars x y = false → listLtChars y x = false → x = y := by
  intro x
  induction x with
  | nil =>
    intro y h1 _
    cases y with
    | nil => rfl
    | cons b bs => simp [listLtChars] at h1
  | cons a as ih =>
    intro y h1 h2
    cases y with
    | nil => simp [listLtChars] at h2
    | cons b bs =>
      unfold listLtChars at h1 h2
      by_cases hab : a < b
      · rw [if_pos hab] at h1
        exact absurd h1 (by simp)
      · by_cases hba : b < a
        · rw [if_pos hba] at h2
          exact absurd h2 (by simp)
        · rw [if_neg hab, if_neg hba] at h1
          rw [if_neg hba, if_neg hab] at h2
          have hc : a = b := le_antisymm (not_lt.mp hba) (not_lt.mp hab)
          rw [hc, ih bs h1 h2]

theorem listLtChars_trans : ∀ x y z : List Char,
    listLtChars x y = true → listLtChars y z = true → listLtChars x z = true := by
  intro x
  induction x with
  | nil =>
    intro y z h1 h2
    cases y with
    | nil => simp [listLtChars] at h1
    | cons b bs =>
      cases z with
      | nil => simp [listLtChars] at h2
      | cons c cs => rfl
  | cons a as ih =>
    intro y z h1 h2
    cases y with
    | nil => simp [listLtChars] at h1
    | cons b bs =>
      cases z with
      | nil => simp [listLtChars] at h2
      | cons c cs =>
        unfold listLtChars at h1 h2 ⊢
        by_cases hab : a < b
        · by_cases hbc : b < c
          · rw [if_pos (lt_trans hab hbc)]
          · rw [if_neg hbc] at h2
            by_cases hcb : c < b
            · rw [if_pos hcb] at h2
              exact absurd h2 (by simp)
            · have hbc' : b = c := le_antisymm (not_lt.mp hcb) (not_lt.mp hbc)
              rw [if_pos (hbc' ▸ hab)]
        · rw [if_neg hab] at h1
          by_cases hba : b < a
          · rw [if_pos hba] at h1
            exact absurd h1 (by simp)
          · rw [if_neg hba] at h1
            have hc : a = b := le_antisymm (not_lt.mp hba) (not_lt.mp hab)
            subst hc
            by_cases hac : a < c
            · rw [if_pos hac]
            · rw [if_neg hac] at h2 ⊢
              by_cases hca : c < a
              · rw [if_pos hca] at h2
                exact absurd h2 (by simp)
              · rw [if_neg hca] at h2 ⊢
                exact ih bs cs h1 h2

theorem strLt_asymm (a b : String) (h : strLt a b = true) : strLt b a = false :=
  listLtChars_asymm _ _ h

theorem strLt_antisymm (a b : String) (h1 : strLt a b = false)
    (h2 : strLt b a = false) : a = b := by
  have h3 : a.toList = b.toList := listLtChars_antisymm _ _ h1 h2
  cases a
  cases b
  exact congrArg String.mk h3

theorem strLt_trans (a b c : String) (h1 : strLt a b = true)
    (h2 : strLt b c = true) : strLt a c = true :=
  listLtChars_trans _ _ _ h1 h2

theorem insertSorted_comm (a b : String) (l : List String) :
    insertSorted a (insertSorted b l) = insertSorted b (insertSorted a l) := by
  induction l with
  | nil =>
    cases hab : strLt a b with
    | true =>
      have hba := strLt_asymm a b hab
      simp [insertSorted, hab, hba]
    | false =>
      cases hba : strLt b a with
      | true => simp [insertSorted, hab, hba]
      | false =>
        have hc : a = b := strLt_antisymm a b hab hba
        subst hc
        rfl
  | cons x xs ih =>
    cases hax : strLt a x with
    | true =>
      cases hbx : strLt b x with
      | true =>
        cases hab : strLt a b with
        | true =>
          have hba := strLt_asymm a b hab
          simp [insertSorted, hax, hbx, hab, hba]
        | false =>
          cases hba : strLt b a with
          | true => simp [insertSorted, hax, hbx, hab, hba]
          | false =>
            have hc : a = b := strLt_antisymm a b hab hba
            subst hc
            rfl
      | false =>
        have hba : strLt b a = false := by
          cases hba : strLt b a with
          | false => rfl
          | true => exact absurd (strLt_trans b a x hba hax) (by simp [hbx])
        simp [insertSorted, hax, hbx, hba]
    | false =>
      cases hbx : strLt b x with
      | true =>
        have hab : strLt a b = false := by
          cases hab : strLt a b with
          | false => rfl
          | true => exact absurd (strLt_trans a b x hab hbx) (by simp [hax])
        simp [insertSorted, hax, hbx, hab]
      | false =>
        simp [insertSorted, hax, hbx, ih]

theorem foldr_insertSorted_insert (s : String) :
    ∀ (l acc : List String),
      l.foldr insertSorted (insertSorted s acc) = insertSorted s (l.foldr insertSorted acc) := by
  intro l
  induction l with
  | nil => intro acc; rfl
  | cons x xs ih =>
    intro acc
    simp only [List.foldr_cons, ih, insertSorted_comm]

theorem foldl_eq_foldr_insert :
    ∀ (l acc : List String),
      l.foldl (fun acc s => insertSorted s acc) acc = l.foldr insertSorted acc := by
  intro l
  induction l with
  | nil => intro acc; rfl
  | cons x xs ih =>
    intro acc
    simp only [List.foldl_cons, List.foldr_cons, ih]
    exact foldr_insertSorted_insert x xs acc

/-- Sorting is invariant under permutation of the input tokens. -/
theorem sortStrings_perm_invariant {l1 l2 : List String} (h : l1.Perm l2) :
    sortStrings l1 = sortStrings l2 := by
  unfold sortStrings
  rw [foldl_eq_foldr_insert, foldl_eq_foldr_insert]
  induction h with
  | nil => rfl
  | cons x _ ih => simp only [List.foldr_cons, ih]
  | swap x y l => simp only [List.foldr_cons]; exact insertSorted_comm _ _ _
  | trans _ _ ih1 ih2 => rw [ih1, ih2]

/-- Reordering the whitespace-separated tokens of a name does not change its
token-sorted normal form. -/
theorem sortJoin_perm {a b : String} (h : (splitWs a).Perm (splitWs b)) :
    sortJoin a = sortJoin b := by
  unfold sortJoin
  rw [sortStrings_perm_invariant h]

/-! ### String-tag helper lemmas -/

theorem ne_empty_of_length_pos {s : String} (h : 0 < s.length) : s ≠ "" := by
  intro e
  rw [e] at h
  simp at h

theorem length_append_left7 {A : String} (B : String) (h : 7 < A.data.length) :
    7 < (A ++ B).data.length := by
  rw [String.data_append, List.length_append]
  omega

theorem getD7_append_left {A : String} (B : String) (h : 7 < A.data.length) :
    (A ++ B).data.getD 7 ' ' = A.data.getD 7 ' ' := by
  rw [String.data_append, List.getD_append _ _ _ _ h]

theorem string_ne_of_head7 {a b : String} (h : a.data.getD 7 ' ' ≠ b.data.getD 7 ' ') :
    a ≠ b := fun e => h (by rw [e])

theorem warnTag_head7 (sc : ℚ) :
    (nameMismatchWarnTag sc).data.getD 7 ' ' = nameMismatchWarnHead.data.getD 7 ' ' := by
  unfold nameMismatchWarnTag
  rw [getD7_append_left _ (length_append_left7 _ (by decide)), getD7_append_left _ (by decide)]

theorem warn_ne_missing (sc : ℚ) : nameMismatchWarnTag sc ≠ missingTag := by
  apply string_ne_of_head7
  rw [warnTag_head7]
  decide

theorem warn_ne_range (sc : ℚ) : nameMismatchWarnTag sc ≠ rangeTag := by
  apply string_ne_of_head7
  rw [warnTag_head7]
  decide

theorem warn_ne_contrib (sc q : ℚ) : nameMismatchWarnTag sc ≠ contribTag q := by
  apply string_ne_of_head7
  rw [warnTag_head7]
  unfold contribTag
  rw [getD7_append_left _ (length_append_left7 _ (by decide)), getD7_append_left _ (by decide)]
  decide

theorem warn_ne_validDirect (sc : ℚ) : nameMismatchWarnTag sc ≠ validDirectTag := by
  apply string_ne_of_head7
  rw [warnTag_head7]
  decide

theorem warn_ne_belongs (sc : ℚ) (s n : String) :
    nameMismatchWarnTag sc ≠ schemeBelongsTag s n := by
  apply string_ne_of_head7
  rw [warnTag_head7]
  unfold schemeBelongsTag
  rw [getD7_append_left _ (length_append_left7 _ (length_append_left7 _ (by decide))),
    getD7_append_left _ (length_append_left7 _ (by decide)),
    getD7_append_left _ (by decide)]
  decide

theorem warn_ne_noMatch (sc : ℚ) (s : String) :
    nameMismatchWarnTag sc ≠ schemeNoMatchTag s := by
  apply string_ne_of_head7
  rw [warnTag_head7]
  unfold schemeNoMatchTag
  rw [getD7_append_left _ (length_append_left7 _ (by decide)), getD7_append_left _ (by decide)]
  decide

theorem warn_ne_auto (sc : ℚ) (i n : String) :
    nameMismatchWarnTag sc ≠ autoMatchTag i n := by
  apply string_ne_of_head7
  rw [warnTag_head7]
  unfold autoMatchTag
  rw [getD7_append_left _ (length_append_left7 _ (length_append_left7 _ (by decide))),
    getD7_append_left _ (length_append_left7 _ (by decide)),
    getD7_append_left _ (by decide)]
  decide

theorem warn_ne_fuzzy (sc : ℚ) (n : String) (q : ℚ) :
    nameMismatchWarnTag sc ≠ fuzzyTag n q := by
  apply string_ne_of_head7
  rw [warnTag_head7]
  unfold fuzzyTag
  rw [getD7_append_left _
      (length_append_left7 _ (length_append_left7 _ (length_append_left7 _ (by decide)))),
    getD7_append_left _ (length_append_left7 _ (length_append_left7 _ (by decide))),
    getD7_append_left _ (length_append_left7 _ (by decide)),
    getD7_append_left _ (by decide)]
  decide

theorem warn_ne_notice (sc : ℚ) : nameMismatchWarnTag sc ≠ noticeTag := by
  apply string_ne_of_head7
  rw [warnTag_head7]
  decide

/-! ### Tag non-emptiness -/

theorem contribTag_ne_empty (q : ℚ) : contribTag q ≠ "" := by
  apply ne_empty_of_length_pos
  unfold contribTag
  rw [String.length_append, String.length_append]
  have h : 0 < contribHead.length := by decide
  omega

theorem belongsTag_ne_empty (s n : String) : schemeBelongsTag s n ≠ "" := by
  apply ne_empty_of_length_pos
  unfold schemeBelongsTag
  rw [String.length_append, String.length_append, String.length_append]
  have h : 0 < schemeBelongsHead.length := by decide
  omega

theorem noMatchTag_ne_empty (s : String) : schemeNoMatchTag s ≠ "" := by
  apply ne_empty_of_length_pos
  unfold schemeNoMatchTag
  rw [String.length_append, String.length_append]
  have h : 0 < schemeNoMatchHead.length := by decide
  omega

theorem autoTag_ne_empty (i n : String) : autoMatchTag i n ≠ "" := by
  apply ne_empty_of_length_pos
  unfold autoMatchTag
  rw [String.length_append, String.length_append, String.length_append]
  have h : 0 < autoMatchHead.length := by decide
  omega

theorem fuzzyTag_ne_empty (n : String) (q : ℚ) : fuzzyTag n q ≠ "" := by
  apply ne_empty_of_length_pos
  unfold fuzzyTag
  rw [String.length_append, String.length_append, String.length_append, String.length_append]
  have h : 0 < fuzzyHead.length := by decide
  omega

/-! ### Engine inversion lemmas -/

/-- A successful key lookup returns the similarity of the input name against
the matched entry, and that similarity meets the threshold. -/
theorem find_and_validate_match_eq_some {df : List RegEntry} {keyOf : RegEntry → KV}
    {keyVal : KV} {inputName : String} {threshold : ℚ} {e : RegEntry} {sc : ℚ}
    (h : find_and_validate_match df keyOf keyVal inputName threshold = some (e, sc)) :
    sc = token_sort_ratio inputName e.clean_name ∧ threshold ≤ sc := by
  unfold find_and_validate_match at h
  split at h
  · exact absurd h (by simp)
  · split at h
    · next dbRow heq =>
      dsimp only at h
      split at h
      · next hle =>
        simp only [Option.some.injEq, Prod.mk.injEq] at h
        obtain ⟨he, hs⟩ := h
        subst he
        subst hs
        exact ⟨rfl, hle⟩
      · exact absurd h (by simp)
    · exact absurd h (by simp)

theorem extractStep_inv (q : String) (acc : Option (String × ℚ)) (c : String)
    (hacc : ∀ m sc, acc = some (m, sc) → sc = token_sort_ratio q m) :
    ∀ m sc, extractStep q acc c = some (m, sc) → sc = token_sort_ratio q m := by
  intro m sc h
  unfold extractStep at h
  cases acc with
  | none =>
    simp only [Option.some.injEq, Prod.mk.injEq] at h
    obtain ⟨hm, hs⟩ := h
    rw [← hs, hm]
  | some p =>
    obtain ⟨b, bs⟩ := p
    dsimp only at h
    split at h
    · simp only [Option.some.injEq, Prod.mk.injEq] at h
      obtain ⟨hm, hs⟩ := h
      rw [← hs, hm]
    · simp only [Option.some.injEq, Prod.mk.injEq] at h
      obtain ⟨hm, hs⟩ := h
      rw [← hs, ← hm]
      exact hacc b bs rfl

theorem foldl_extractStep_inv (q : String) :
    ∀ (cs : List String) (acc : Option (String × ℚ)),
      (∀ m sc, acc = some (m, sc) → sc = token_sort_ratio q m) →
      ∀ m sc, cs.foldl (extractStep q) acc = some (m, sc) → sc = token_sort_ratio q m := by
  intro cs
  induction cs with
  | nil => intro acc hacc m sc h; exact hacc m sc h
  | cons c cs ih =>
    intro acc hacc m sc h
    rw [List.foldl_cons] at h
    exact ih (extractStep q acc c) (extractStep_inv q acc c hacc) m sc h

/-- The best fuzzy choice carries exactly its token-sort score. -/
theorem extractOneBest_eq_some {q m : String} {sc : ℚ} {choices : List String}
    (h : extractOneBest q choices = some (m, sc)) : sc = token_sort_ratio q m :=
  foldl_extractStep_inv q choices none (by intro m' sc' h'; cases h') m sc h

/-- A confirmed direct scheme match passed the loose name threshold, and its
status, match type and mismatch flag are fixed. -/
theorem directMatch_some {sreg : List RegEntry} {r : Row} {st : List String}
    {e : RegEntry} {mt : String} {b : Bool}
    (h : directMatch sreg r = (st, some e, mt, b)) :
    loose_threshold ≤ token_sort_ratio r.clean_name e.clean_name ∧
      st = [validDirectTag] ∧ mt = "Direct Scheme" ∧ b = false := by
  unfold directMatch at h
  split at h
  · split at h
    · next e' heq =>
      dsimp only at h
      split at h
      · next hsim =>
        simp only [Prod.mk.injEq, Option.some.injEq] at h
        obtain ⟨hst, he, hmt, hb⟩ := h
        subst he
        exact ⟨hsim, hst.symm, hmt.symm, hb.symm⟩
      · simp at h
    · simp at h
  · simp at h

/-- When the direct step matches nothing, the mismatch flag is set and the
match type is still empty. -/
theorem directMatch_none {sreg : List RegEntry} {r : Row} {st : List String}
    {mt : String} {b : Bool}
    (h : directMatch sreg r = (st, none, mt, b)) : b = true ∧ mt = "" := by
  unfold directMatch at h
  split at h
  · split at h
    · next e' heq =>
      dsimp only at h
      split at h
      · simp at h
      · simp only [Prod.mk.injEq] at h
        exact ⟨h.2.2.2.symm, h.2.2.1.symm⟩
    · simp only [Prod.mk.injEq] at h
      exact ⟨h.2.2.2.symm, h.2.2.1.symm⟩
  · simp only [Prod.mk.injEq] at h
    exact ⟨h.2.2.2.symm, h.2.2.1.symm⟩

/-- The possible status lists of the direct step. -/
theorem directMatch_status {sreg : List RegEntry} {r : Row} {st : List String}
    {m : Option RegEntry} {mt : String} {b : Bool}
    (h : directMatch sreg r = (st, m, mt, b)) :
    st = [] ∨ st = [validDirectTag] ∨
      (∃ s n, st = [schemeBelongsTag s n]) ∨ ∃ s, st = [schemeNoMatchTag s] := by
  unfold directMatch at h
  split at h
  · split at h
    · next e' heq =>
      dsimp only at h
      split at h
      · simp only [Prod.mk.injEq] at h
        exact Or.inr (Or.inl h.1.symm)
      · simp only [Prod.mk.injEq] at h
        exact Or.inr (Or.inr (Or.inl ⟨_, _, h.1.symm⟩))
    · simp only [Prod.mk.injEq] at h
      exact Or.inr (Or.inr (Or.inr ⟨_, h.1.symm⟩))
  · simp only [Prod.mk.injEq] at h
    exact Or.inl h.1.symm

/-- A successful fuzzy name match passed the strict threshold against the
entry it selected. -/
theorem fuzzyName_some {freg : List RegEntry} {r : Row} {st : List String}
    {e : RegEntry} {mt : String} {so : Option String}
    (h : fuzzyName freg r = (st, some e, mt, so)) :
    strict_threshold ≤ token_sort_ratio r.clean_name e.clean_name := by
  unfold fuzzyName at h
  split at h
  · next matchedName score hx =>
    split at h
    · next hge =>
      split at h
      · next e' hfind =>
        simp only [Prod.mk.injEq, Option.some.injEq] at h
        obtain ⟨_, he, _, _⟩ := h
        subst he
        have hname : e'.clean_name = matchedName := by
          have := List.find?_some hfind
          exact of_decide_eq_true this
        have hsc : score = token_sort_ratio r.clean_name matchedName :=
          extractOneBest_eq_some hx
        rw [← hname] at hsc
        rw [← hsc]
        exact hge
      · simp at h
    · simp at h
  · simp at h

/-- The fuzzy step always emits exactly one status tag, and it is nonempty. -/
theorem fuzzyName_status (freg : List RegEntry) (r : Row) :
    ∃ t, (fuzzyName freg r).1 = [t] ∧ t ≠ "" := by
  unfold fuzzyName
  split
  · next matchedName score hx =>
    split
    · split
      · exact ⟨_, rfl, fuzzyTag_ne_empty _ _⟩
      · exact ⟨_, rfl, by decide⟩
    · exact ⟨_, rfl, by decide⟩
  · exact ⟨_, rfl, by decide⟩

theorem pyJoin_ne_empty (sep t : String) (rest : List String) (ht : t ≠ "") :
    pyJoin sep (t :: rest) ≠ "" := by
  cases rest with
  | nil => exact ht
  | cons r rs =>
    apply ne_empty_of_length_pos
    unfold pyJoin
    rw [String.length_append, String.length_append]
    have h : 0 < t.length := by
      by_contra hc
      exact ht (by
        have h0 : t.length = 0 := Nat.eq_zero_of_not_pos hc
        cases t with
        | mk d =>
          cases d with
          | nil => rfl
          | cons c cs => simp [String.length] at h0)
    omega

/-- An accepted ID fallback carries the similarity of the input name against
the accepted entry, meets the strict threshold, and is labelled with one of
the three key names. -/
theorem fallbackID_eq_some {sreg : List RegEntry} {r : Row} {t : String}
    {e : RegEntry} {sc : ℚ}
    (h : fallbackID sreg r = some (t, e, sc)) :
    sc = token_sort_ratio r.clean_name e.clean_name ∧ strict_threshold ≤ sc ∧
      (t = "Ghana Card" ∨ t = "SSNIT" ∨ t = "Contact") := by
  unfold fallbackID at h
  split at h
  · next p hN =>
    obtain ⟨e', sc'⟩ := p
    simp only [Option.some.injEq, Prod.mk.injEq] at h
    obtain ⟨ht, he, hs⟩ := h
    subst he
    subst hs
    obtain ⟨h1, h2⟩ := find_and_validate_match_eq_some hN
    exact ⟨h1, h2, Or.inl ht.symm⟩
  · split at h
    · next p hS =>
      obtain ⟨e', sc'⟩ := p
      simp only [Option.some.injEq, Prod.mk.injEq] at h
      obtain ⟨ht, he, hs⟩ := h
      subst he
      subst hs
      obtain ⟨h1, h2⟩ := find_and_validate_match_eq_some hS
      exact ⟨h1, h2, Or.inr (Or.inl ht.symm)⟩
    · split at h
      · next p hC =>
        obtain ⟨e', sc'⟩ := p
        simp only [Option.some.injEq, Prod.mk.injEq] at h
        obtain ⟨ht, he, hs⟩ := h
        subst he
        subst hs
        obtain ⟨h1, h2⟩ := find_and_validate_match_eq_some hC
        exact ⟨h1, h2, Or.inr (Or.inr ht.symm)⟩
      · exact absurd h (by simp)

/-- The fuzzy step status is either the notice tag or a single fuzzy tag. -/
theorem fuzzyName_status_shape (freg : List RegEntry) (r : Row) :
    (fuzzyName freg r).1 = [noticeTag] ∨
      ∃ mn q, (fuzzyName freg r).1 = [fuzzyTag mn q] := by
  unfold fuzzyName
  split
  · split
    · split
      · exact Or.inr ⟨_, _, rfl⟩
      · exact Or.inl rfl
    · exact Or.inl rfl
  · exact Or.inl rfl

/-- An empty direct-step status only arises from the malformed-scheme branch,
which sets the mismatch flag and matches nothing. -/
theorem directMatch_empty_status {sreg : List RegEntry} {r : Row}
    {m : Option RegEntry} {mt : String} {b : Bool}
    (h : directMatch sreg r = ([], m, mt, b)) : b = true ∧ m = none := by
  unfold directMatch at h
  split at h
  · split at h
    · next e' heq =>
      dsimp only at h
      split at h
      · simp at h
      · simp at h
    · simp at h
  · simp only [Prod.mk.injEq] at h
    exact ⟨h.2.2.2.symm, h.2.1.symm⟩

theorem finishRow_matchType (r : Row) (st : List String) (m : Option RegEntry)
    (mt so : String) : (finishRow r st m mt so).matchType = mt := by
  unfold finishRow
  cases m with
  | none => rfl
  | some e => rfl

theorem finishRow_schemeOut (r : Row) (st : List String) (m : Option RegEntry)
    (mt so : String) : (finishRow r st m mt so).schemeOut = so := by
  unfold finishRow
  cases m with
  | none => rfl
  | some e => rfl

/-- If the matched entry cleared the loose threshold, the warning branch is
skipped and the status is unchanged. -/
theorem finishRow_status_no_warn {r : Row} {e : RegEntry} (st : List String)
    (mt so : String)
    (h : loose_threshold ≤ token_sort_ratio r.clean_name e.clean_name) :
    (finishRow r st (some e) mt so).status = st := by
  unfold finishRow
  dsimp only
  rw [if_neg (not_lt.mpr h)]

theorem finishRow_status_none (r : Row) (st : List String) (mt so : String) :
    (finishRow r st none mt so).status = st := rfl

theorem finishRow_validationStatus (r : Row) (st : List String)
    (m : Option RegEntry) (mt so : String) :
    (finishRow r st m mt so).validationStatus = pyJoin "; " (finishRow r st m mt so).status := by
  unfold finishRow
  cases m with
  | none => rfl
  | some e => rfl

theorem flagRow_fields (tag : String) (r : Row) :
    (flagRow tag r).status = [tag] ∧ (flagRow tag r).validationStatus = tag ∧
      (flagRow tag r).matchType = "" ∧ (flagRow tag r).schemeOut = r.scheme :=
  ⟨rfl, rfl, rfl, rfl⟩

/-! ### The warning branch is unreachable -/

theorem warn_not_mem_direct {sreg : List RegEntry} {r : Row} {st1 : List String}
    {m : Option RegEntry} {mt : String} {b : Bool} (q : ℚ)
    (h : directMatch sreg r = (st1, m, mt, b)) :
    nameMismatchWarnTag q ∉ st1 := by
  rcases directMatch_status h with h1 | h1 | ⟨s, n, h1⟩ | ⟨s, h1⟩ <;> subst h1
  · simp
  · simp only [List.mem_singleton]
    exact warn_ne_validDirect q
  · simp only [List.mem_singleton]
    exact warn_ne_belongs q s n
  · simp only [List.mem_singleton]
    exact warn_ne_noMatch q s

theorem warn_not_mem_fuzzy (freg : List RegEntry) (r : Row) (q : ℚ) :
    nameMismatchWarnTag q ∉ (fuzzyName freg r).1 := by
  rcases fuzzyName_status_shape freg r with h | ⟨mn, qq, h⟩ <;> rw [h]
  · simp only [List.mem_singleton]
    exact warn_ne_notice q
  · simp only [List.mem_singleton]
    exact warn_ne_fuzzy q mn qq

theorem loose_le_strict : loose_threshold ≤ strict_threshold := by
  norm_num [loose_threshold, strict_threshold]

theorem resolveRow_no_warn (sreg freg : List RegEntry) (r : Row) (q : ℚ) :
    nameMismatchWarnTag q ∉ (resolveRow sreg freg r).status := by
  obtain ⟨⟨st1, m1, mt1, mism⟩, hd⟩ : ∃ p, directMatch sreg r = p := ⟨_, rfl⟩
  unfold resolveRow
  rw [hd]
  dsimp only
  by_cases hc : (mism && m1.isNone) = true
  · rw [if_pos hc]
    cases hf : fallbackID sreg r with
    | some trip =>
      obtain ⟨idType, e, sc⟩ := trip
      obtain ⟨hsc, hge, _⟩ := fallbackID_eq_some hf
      have hloose : loose_threshold ≤ token_sort_ratio r.clean_name e.clean_name := by
        rw [← hsc]
        exact le_trans loose_le_strict hge
      rw [finishRow_status_no_warn _ _ _ hloose]
      intro hmem
      rcases List.mem_append.mp hmem with hmem | hmem
      · exact warn_not_mem_direct q hd hmem
      · rw [List.mem_singleton] at hmem
        exact warn_ne_auto q _ _ hmem
    | none =>
      rcases hz : fuzzyName freg r with ⟨stf, mf, mtf, sof⟩
      have hznw : nameMismatchWarnTag q ∉ stf := by
        have hwf := warn_not_mem_fuzzy freg r q
        rw [hz] at hwf
        exact hwf
      cases mf with
      | some e =>
        have hst : strict_threshold ≤ token_sort_ratio r.clean_name e.clean_name :=
          fuzzyName_some hz
        have hloose := le_trans loose_le_strict hst
        rw [finishRow_status_no_warn _ _ _ hloose]
        intro hmem
        rcases List.mem_append.mp hmem with hmem | hmem
        · exact warn_not_mem_direct q hd hmem
        · exact hznw hmem
      | none =>
        rw [finishRow_status_none]
        intro hmem
        rcases List.mem_append.mp hmem with hmem | hmem
        · exact warn_not_mem_direct q hd hmem
        · exact hznw hmem
  · rw [if_neg hc]
    cases m1 with
    | some e =>
      obtain ⟨hloose, hst, _, _⟩ := directMatch_some hd
      rw [finishRow_status_no_warn _ _ _ hloose]
      exact warn_not_mem_direct q hd
    | none =>
      rw [finishRow_status_none]
      exact warn_not_mem_direct q hd

/-! ### Every row carries a nonempty status -/

theorem status_head_shape {st1 L : List String}
    (h1 : st1 = [] ∨ ∃ t, st1 = [t] ∧ t ≠ "")
    (h2 : ∃ t, L = [t] ∧ t ≠ "") :
    ∃ t rest, st1 ++ L = t :: rest ∧ t ≠ "" := by
  obtain ⟨t2, hL, ht2⟩ := h2
  rcases h1 with h1 | ⟨t1, hst, ht1⟩
  · subst h1
    subst hL
    exact ⟨t2, [], rfl, ht2⟩
  · subst hst
    subst hL
    exact ⟨t1, [t2], rfl, ht1⟩

theorem directMatch_status_shape {sreg : List RegEntry} {r : Row} {st : List String}
    {m : Option RegEntry} {mt : String} {b : Bool}
    (h : directMatch sreg r = (st, m, mt, b)) :
    st = [] ∨ ∃ t, st = [t] ∧ t ≠ "" := by
  rcases directMatch_status h with h1 | h1 | ⟨s, n, h1⟩ | ⟨s, h1⟩
  · exact Or.inl h1
  · exact Or.inr ⟨_, h1, by decide⟩
  · exact Or.inr ⟨_, h1, belongsTag_ne_empty s n⟩
  · exact Or.inr ⟨_, h1, noMatchTag_ne_empty s⟩

theorem finishRow_validation_ne {r : Row} {st : List String} {m : Option RegEntry}
    {mt so : String} (hsh : ∃ t rest, st = t :: rest ∧ t ≠ "") :
    (finishRow r st m mt so).validationStatus ≠ "" := by
  obtain ⟨t, rest, hst, ht⟩ := hsh
  subst hst
  unfold finishRow
  cases m with
  | none => exact pyJoin_ne_empty _ _ _ ht
  | some e =>
    dsimp only
    split
    · rw [List.cons_append]
      exact pyJoin_ne_empty _ _ _ ht
    · exact pyJoin_ne_empty _ _ _ ht

theorem resolveRow_validation_ne (sreg freg : List RegEntry) (r : Row) :
    (resolveRow sreg freg r).validationStatus ≠ "" := by
  obtain ⟨⟨st1, m1, mt1, mism⟩, hd⟩ : ∃ p, directMatch sreg r = p := ⟨_, rfl⟩
  have hsh := directMatch_status_shape hd
  unfold resolveRow
  rw [hd]
  dsimp only
  by_cases hc : (mism && m1.isNone) = true
  · rw [if_pos hc]
    cases hf : fallbackID sreg r with
    | some trip =>
      obtain ⟨idType, e, sc⟩ := trip
      exact finishRow_validation_ne
        (status_head_shape hsh ⟨_, rfl, autoTag_ne_empty _ _⟩)
    | none =>
      rcases hz : fuzzyName freg r with ⟨stf, mf, mtf, sof⟩
      have hzf := fuzzyName_status freg r
      rw [hz] at hzf
      cases mf with
      | some e => exact finishRow_validation_ne (status_head_shape hsh hzf)
      | none => exact finishRow_validation_ne (status_head_shape hsh hzf)
  · rw [if_neg hc]
    rcases hsh with h1 | ⟨t, hst, ht⟩
    · subst h1
      obtain ⟨hb, hm⟩ := directMatch_empty_status hd
      subst hb
      subst hm
      simp at hc
    · subst hst
      exact finishRow_validation_ne ⟨t, [], rfl, ht⟩

theorem validateRow_validation_ne (sreg freg : List RegEntry) (r : Row) :
    (validateRow sreg freg r).validationStatus ≠ "" := by
  unfold validateRow
  cases hs : r.salary with
  | none =>
    dsimp only [flagRow]
    decide
  | some sal =>
    cases ht2 : r.tier2 with
    | none =>
      dsimp only [flagRow]
      decide
    | some t2 =>
      dsimp only
      split
      · split
        · dsimp only [flagRow]
          exact contribTag_ne_empty _
        · exact resolveRow_validation_ne sreg freg r
      · dsimp only [flagRow]
        decide

/-! ### The contribution tag appears only through its own flag branch -/

theorem length_append_left_idx (n : Nat) (A B : String) (h : n < A.data.length) :
    n < (A ++ B).data.length := by
  rw [String.data_append, List.length_append]
  omega

theorem getD_append_left_idx (n : Nat) (A B : String) (h : n < A.data.length) :
    (A ++ B).data.getD n ' ' = A.data.getD n ' ' := by
  rw [String.data_append, List.getD_append _ _ _ _ h]

theorem string_ne_of_head_idx (n : Nat) {a b : String}
    (h : a.data.getD n ' ' ≠ b.data.getD n ' ') : a ≠ b :=
  fun e => h (by rw [e])

theorem contribTag_head10 (q : ℚ) :
    (contribTag q).data.getD 10 ' ' = contribHead.data.getD 10 ' ' := by
  unfold contribTag
  rw [getD_append_left_idx 10 _ _ (length_append_left_idx 10 _ _ (by decide)),
    getD_append_left_idx 10 _ _ (by decide)]

theorem contrib_ne_missing (q : ℚ) : contribTag q ≠ missingTag := by
  apply string_ne_of_head_idx 10
  rw [contribTag_head10]
  decide

theorem contrib_ne_range (q : ℚ) : contribTag q ≠ rangeTag := by
  apply string_ne_of_head_idx 10
  rw [contribTag_head10]
  decide

theorem contrib_ne_validDirect (q : ℚ) : contribTag q ≠ validDirectTag := by
  apply string_ne_of_head_idx 10
  rw [contribTag_head10]
  decide

theorem contrib_ne_notice (q : ℚ) : contribTag q ≠ noticeTag := by
  apply string_ne_of_head_idx 10
  rw [contribTag_head10]
  decide

theorem contrib_ne_belongs (q : ℚ) (s n : String) :
    contribTag q ≠ schemeBelongsTag s n := by
  apply string_ne_of_head_idx 10
  rw [contribTag_head10]
  unfold schemeBelongsTag
  rw [getD_append_left_idx 10 _ _
      (length_append_left_idx 10 _ _ (length_append_left_idx 10 _ _ (by decide))),
    getD_append_left_idx 10 _ _ (length_append_left_idx 10 _ _ (by decide)),
    getD_append_left_idx 10 _ _ (by decide)]
  decide

theorem contrib_ne_noMatch (q : ℚ) (s : String) : contribTag q ≠ schemeNoMatchTag s := by
  apply string_ne_of_head_idx 10
  rw [contribTag_head10]
  unfold schemeNoMatchTag
  rw [getD_append_left_idx 10 _ _ (length_append_left_idx 10 _ _ (by decide)),
    getD_append_left_idx 10 _ _ (by decide)]
  decide

theorem contrib_ne_auto (q : ℚ) (i n : String) : contribTag q ≠ autoMatchTag i n := by
  apply string_ne_of_head_idx 10
  rw [contribTag_head10]
  unfold autoMatchTag
  rw [getD_append_left_idx 10 _ _
      (length_append_left_idx 10 _ _ (length_append_left_idx 10 _ _ (by decide))),
    getD_append_left_idx 10 _ _ (length_append_left_idx 10 _ _ (by decide)),
    getD_append_left_idx 10 _ _ (by decide)]
  decide

theorem contrib_ne_fuzzy (q : ℚ) (n : String) (sc : ℚ) : contribTag q ≠ fuzzyTag n sc := by
  apply string_ne_of_head_idx 10
  rw [contribTag_head10]
  unfold fuzzyTag
  rw [getD_append_left_idx 10 _ _
      (length_append_left_idx 10 _ _
        (length_append_left_idx 10 _ _ (length_append_left_idx 10 _ _ (by decide)))),
    getD_append_left_idx 10 _ _
      (length_append_left_idx 10 _ _ (length_append_left_idx 10 _ _ (by decide))),
    getD_append_left_idx 10 _ _ (length_append_left_idx 10 _ _ (by decide)),
    getD_append_left_idx 10 _ _ (by decide)]
  decide

theorem contrib_not_mem_direct {sreg : List RegEntry} {r : Row} {st1 : List String}
    {m : Option RegEntry} {mt : String} {b : Bool} (q : ℚ)
    (h : directMatch sreg r = (st1, m, mt, b)) :
    contribTag q ∉ st1 := by
  rcases directMatch_status h with h1 | h1 | ⟨s, n, h1⟩ | ⟨s, h1⟩ <;> subst h1
  · simp
  · simp only [List.mem_singleton]
    exact contrib_ne_validDirect q
  · simp only [List.mem_singleton]
    exact contrib_ne_belongs q s n
  · simp only [List.mem_singleton]
    exact contrib_ne_noMatch q s

theorem contrib_not_mem_fuzzy (freg : List RegEntry) (r : Row) (q : ℚ) :
    contribTag q ∉ (fuzzyName freg r).1 := by
  rcases fuzzyName_status_shape freg r with h | ⟨mn, qq, h⟩ <;> rw [h]
  · simp only [List.mem_singleton]
    exact contrib_ne_notice q
  · simp only [List.mem_singleton]
    exact contrib_ne_fuzzy q mn qq

theorem finishRow_status_cases (r : Row) (st : List String) (m : Option RegEntry)
    (mt so : String) :
    (finishRow r st m mt so).status = st ∨
      ∃ sc, (finishRow r st m mt so).status = st ++ [nameMismatchWarnTag sc] := by
  unfold finishRow
  cases m with
  | none => exact Or.inl rfl
  | some e =>
    dsimp only
    split
    · exact Or.inr ⟨_, rfl⟩
    · exact Or.inl rfl

theorem contrib_not_mem_finishRow {r : Row} {st : List String} {m : Option RegEntry}
    {mt so : String} {q : ℚ} (h : contribTag q ∉ st) :
    contribTag q ∉ (finishRow r st m mt so).status := by
  rcases finishRow_status_cases r st m mt so with hc | ⟨sc, hc⟩ <;> rw [hc]
  · exact h
  · intro hmem
    rcases List.mem_append.mp hmem with hmem | hmem
    · exact h hmem
    · rw [List.mem_singleton] at hmem
      exact (warn_ne_contrib sc q) hmem.symm

theorem contrib_not_mem_resolveRow (sreg freg : List RegEntry) (r : Row) (q : ℚ) :
    contribTag q ∉ (resolveRow sreg freg r).status := by
  obtain ⟨⟨st1, m1, mt1, mism⟩, hd⟩ : ∃ p, directMatch sreg r = p := ⟨_, rfl⟩
  unfold resolveRow
  rw [hd]
  dsimp only
  by_cases hc : (mism && m1.isNone) = true
  · rw [if_pos hc]
    cases hf : fallbackID sreg r with
    | some trip =>
      obtain ⟨idType, e, sc⟩ := trip
      refine contrib_not_mem_finishRow ?_
      intro hmem
      rcases List.mem_append.mp hmem with hmem | hmem
      · exact contrib_not_mem_direct q hd hmem
      · rw [List.mem_singleton] at hmem
        exact contrib_ne_auto q _ _ hmem
    | none =>
      rcases hz : fuzzyName freg r with ⟨stf, mf, mtf, sof⟩
      have hzn : contribTag q ∉ stf := by
        have hwf := contrib_not_mem_fuzzy freg r q
        rw [hz] at hwf
        exact hwf
      cases mf with
      | some e =>
        refine contrib_not_mem_finishRow ?_
        intro hmem
        rcases List.mem_append.mp hmem with hmem | hmem
        · exact contrib_not_mem_direct q hd hmem
        · exact hzn hmem
      | none =>
        refine contrib_not_mem_finishRow ?_
        intro hmem
        rcases List.mem_append.mp hmem with hmem | hmem
        · exact contrib_not_mem_direct q hd hmem
        · exact hzn hmem
  · rw [if_neg hc]
    exact contrib_not_mem_finishRow (contrib_not_mem_direct q hd)

/-! ### Claim theorems -/

/-- C4: a row with a missing salary or a missing contribution is finalized
with the missing-amount tag and only that tag, identity resolution is skipped
(the match type stays empty), and its scheme identifier is not mutated. -/
theorem claim_C4 (scheme_df filtered_df : List RegEntry) (r : Row)
    (h : r.salary = none ∨ r.tier2 = none) :
    (validateRow scheme_df filtered_df r).status = [missingTag] ∧
      (validateRow scheme_df filtered_df r).validationStatus = missingTag ∧
      (validateRow scheme_df filtered_df r).matchType = "" ∧
      (validateRow scheme_df filtered_df r).schemeOut = r.scheme := by
  have hv : validateRow scheme_df filtered_df r = flagRow missingTag r := by
    unfold validateRow
    rcases h with h | h
    · rw [h]
    · rw [h]
      cases r.salary <;> rfl
  rw [hv]
  exact flagRow_fields missingTag r

/-- C4 witness: a concrete row with a missing salary, a well-formed scheme
number and a matchable registry entry still only gets the missing-amount
tag. -/
theorem claim_C4_witness :
    (exC4Row.salary = none ∨ exC4Row.tier2 = none) ∧
      ((validateRow [] [] exC4Row).status = [missingTag] ∧
        (validateRow [] [] exC4Row).validationStatus = missingTag ∧
        (validateRow [] [] exC4Row).matchType = "" ∧
        (validateRow [] [] exC4Row).schemeOut = exC4Row.scheme) :=
  ⟨Or.inl rfl, claim_C4 [] [] exC4Row (Or.inl rfl)⟩

/-- C8: the similarity scorer is symmetric, its value depends only on the
multiset of whitespace-separated tokens of each argument (so any reordering of
the name tokens leaves every score unchanged), and the reordered pair
"Ama Boateng" / "Boateng Ama" scores at least 99. -/
theorem claim_C8 :
    (∀ a b : String, token_sort_ratio a b = token_sort_ratio b a) ∧
      (∀ a b c : String, (splitWs a).Perm (splitWs b) →
        token_sort_ratio a c = token_sort_ratio b c) ∧
      99 ≤ token_sort_ratio "Ama Boateng" "Boateng Ama" := by
  refine ⟨token_sort_ratio_comm, ?_, ?_⟩
  · intro a b c h
    unfold token_sort_ratio
    rw [sortJoin_perm h]
  · have h : token_sort_ratio "Ama Boateng" "Boateng Ama" = 100 := by decide
    rw [h]
    norm_num

/-- C8 witness: the token-reordering invariance applied at a concrete pair. -/
theorem claim_C8_witness :
    (splitWs "Ama Boateng").Perm (splitWs "Boateng Ama") ∧
      token_sort_ratio "Ama Boateng" "Yaw" = token_sort_ratio "Boateng Ama" "Yaw" :=
  ⟨by decide, claim_C8.2.1 "Ama Boateng" "Boateng Ama" "Yaw" (by decide)⟩

/-- C9: the never-raise claim fails at the batch level.  Each row is
annotated with a nonempty status, and an all-string batch is returned sorted;
but the Member Name column is never stringified, so one well-shaped row whose
name cell held a number makes the final sort compare a number with a string
and raise TypeError, aborting the whole batch (modelled as `none`). -/
theorem claim_C9 :
    validate_schedule [] [] [exC9Row, exC9RowNum] = none ∧
      (validateRow [] [] exC9Row).validationStatus ≠ "" ∧
      (validateRow [] [] exC9RowNum).validationStatus ≠ "" ∧
      validate_schedule [] [] [exC9Row] = some [flagRow missingTag exC9Row] := by
  decide

/-- C10: the trailing name-mismatch warning branch is unreachable — its
warning tag never appears in any output status, because every acceptance path
requires a similarity at least the loose threshold. -/
theorem claim_C10 (scheme_df filtered_df : List RegEntry) (r : Row) (q : ℚ) :
    nameMismatchWarnTag q ∉ (validateRow scheme_df filtered_df r).status := by
  unfold validateRow
  cases hs : r.salary with
  | none =>
    dsimp only [flagRow]
    simp only [List.mem_singleton]
    exact warn_ne_missing q
  | some sal =>
    cases ht2 : r.tier2 with
    | none =>
      dsimp only [flagRow]
      simp only [List.mem_singleton]
      exact warn_ne_missing q
    | some t2 =>
      dsimp only
      split
      · split
        · dsimp only [flagRow]
          simp only [List.mem_singleton]
          exact warn_ne_contrib q _
        · exact resolveRow_no_warn _ _ r q
      · dsimp only [flagRow]
        simp only [List.mem_singleton]
        exact warn_ne_range q

/-- C10 witness: the warning tag is absent from a concrete resolved row. -/
theorem claim_C10_witness :
    nameMismatchWarnTag 0 ∉ (validateRow [exC1Reg] [exC1Reg] exC10Row).status :=
  claim_C10 [exC1Reg] [exC1Reg] exC10Row 0

/-- C1 (amended): with both amounts present, an out-of-range salary — and
likewise an excessive contribution deviation on an "ops" scheme — finalizes
the row immediately with only that violation tag; identity resolution is
skipped, exactly as for a missing amount. -/
theorem claim_C1_amended (scheme_df filtered_df : List RegEntry) (r : Row)
    (sal t2 : ℚ) (hsal : r.salary = some sal) (ht2 : r.tier2 = some t2) :
    (¬(mkRat 5398 10 ≤ sal ∧ sal ≤ 61000) →
      validateRow scheme_df filtered_df r = flagRow rangeTag r) ∧
      ((mkRat 5398 10 ≤ sal ∧ sal ≤ 61000) →
        (mkRat 1 2 < qabs (qsub (round2 t2) (round2 (qmul sal (mkRat 5 100)))) ∧
            containsOps r.scheme = true) →
        validateRow scheme_df filtered_df r =
          flagRow (contribTag (round2 (qmul sal (mkRat 5 100)))) r) := by
  constructor
  · intro hrange
    unfold validateRow
    rw [hsal, ht2]
    dsimp only
    rw [if_neg hrange]
  · intro hrange hdev
    unfold validateRow
    rw [hsal, ht2]
    dsimp only
    rw [if_pos hrange, if_pos hdev]

/-- C1 counterexample: a row whose salary is out of range but whose scheme
number would directly resolve is finalized with only the range tag — the
business-check tag and a resolution tag never appear together. -/
theorem claim_C1_counterexample :
    (exC1Row.salary = some 100 ∧ exC1Row.scheme = "1010000000001" ∧
        [exC1Reg].find? (fun e => e.schemeNumber = exC1Row.scheme) = some exC1Reg ∧
        loose_threshold ≤ token_sort_ratio exC1Row.clean_name exC1Reg.clean_name) ∧
      (validateRow [exC1Reg] [exC1Reg] exC1Row).validationStatus = rangeTag ∧
      (validateRow [exC1Reg] [exC1Reg] exC1Row).matchType = "" ∧
      validDirectTag ∉ (validateRow [exC1Reg] [exC1Reg] exC1Row).status := by
  decide

/-- C1 witness: the amended short-circuit theorem at a concrete out-of-range
row. -/
theorem claim_C1_witness :
    (¬(mkRat 5398 10 ≤ (100 : ℚ) ∧ (100 : ℚ) ≤ 61000) →
      validateRow [exC1Reg] [exC1Reg] exC1Row = flagRow rangeTag exC1Row) ∧
      ((mkRat 5398 10 ≤ (100 : ℚ) ∧ (100 : ℚ) ≤ 61000) →
        (mkRat 1 2 < qabs (qsub (round2 (50 : ℚ)) (round2 (qmul 100 (mkRat 5 100)))) ∧
            containsOps exC1Row.scheme = true) →
        validateRow [exC1Reg] [exC1Reg] exC1Row =
          flagRow (contribTag (round2 (qmul 100 (mkRat 5 100)))) exC1Row) :=
  claim_C1_amended [exC1Reg] [exC1Reg] exC1Row 100 50 rfl rfl

/-- C3 (amended): for a row that passes the business checks, a syntactically
well-formed scheme number found in the scheme-wide view whose first match
clears the loose name threshold yields the confirmed-match tag as the whole
status, leaves the scheme identifier unchanged and records a direct match. -/
theorem claim_C3_amended (scheme_df filtered_df : List RegEntry) (r : Row)
    (sal t2 : ℚ) (e : RegEntry)
    (hsal : r.salary = some sal) (ht2 : r.tier2 = some t2)
    (hrange : mkRat 5398 10 ≤ sal ∧ sal ≤ 61000)
    (hcontrib : ¬(mkRat 1 2 < qabs (qsub (round2 t2) (round2 (qmul sal (mkRat 5 100)))) ∧
        containsOps r.scheme = true))
    (hlen : r.scheme.length = 13)
    (hpre : startsWithList r.scheme.toList "1010".toList = true)
    (hfind : scheme_df.find? (fun x => x.schemeNumber = r.scheme) = some e)
    (hsim : loose_threshold ≤ token_sort_ratio r.clean_name e.clean_name) :
    (validateRow scheme_df filtered_df r).validationStatus = validDirectTag ∧
      (validateRow scheme_df filtered_df r).schemeOut = r.scheme ∧
      (validateRow scheme_df filtered_df r).matchType = "Direct Scheme" := by
  have hne : r.scheme ≠ "" := by
    intro h0
    rw [h0] at hlen
    exact absurd hlen (by decide)
  have hdm : directMatch scheme_df r = ([validDirectTag], some e, "Direct Scheme", false) := by
    unfold directMatch
    rw [if_pos (by
      simp only [Bool.and_eq_true, decide_eq_true_eq]
      refine ⟨⟨hne, hlen⟩, ?_⟩
      exact hpre), hfind]
    dsimp only
    rw [if_pos hsim]
  have hres : validateRow scheme_df filtered_df r = resolveRow scheme_df filtered_df r := by
    unfold validateRow
    rw [hsal, ht2]
    dsimp only
    rw [if_pos hrange, if_neg hcontrib]
  rw [hres]
  unfold resolveRow
  rw [hdm]
  dsimp only
  rw [if_neg (by simp)]
  refine ⟨?_, ?_, ?_⟩
  · rw [finishRow_validationStatus, finishRow_status_no_warn _ _ _ hsim]
    rfl
  · rw [finishRow_schemeOut]
  · rw [finishRow_matchType]

/-- C3 counterexample: the same well-formed, registered, name-consistent
scheme number does not produce the confirmed-match tag when the salary is
missing — the claim needs the business-check gate. -/
theorem claim_C3_counterexample :
    (exC3RowX.scheme.length = 13 ∧
        startsWithList exC3RowX.scheme.toList "1010".toList = true ∧
        [exC3Reg].find? (fun x => x.schemeNumber = exC3RowX.scheme) = some exC3Reg ∧
        loose_threshold ≤ token_sort_ratio exC3RowX.clean_name exC3Reg.clean_name) ∧
      validDirectTag ∉ (validateRow [exC3Reg] [exC3Reg] exC3RowX).status := by
  decide

/-- C3 witness: the amended direct-match theorem at a concrete row. -/
theorem claim_C3_witness :
    (validateRow [exC3Reg] [exC3Reg] exC3Row).validationStatus = validDirectTag ∧
      (validateRow [exC3Reg] [exC3Reg] exC3Row).schemeOut = exC3Row.scheme ∧
      (validateRow [exC3Reg] [exC3Reg] exC3Row).matchType = "Direct Scheme" :=
  claim_C3_amended [exC3Reg] [exC3Reg] exC3Row 1000 50 exC3Reg rfl rfl
    (by decide) (by decide) (by decide) (by decide) (by decide) (by decide)

/-- C5: the claim that missing or blank key values are never used for lookups
fails — after normalization a blank NIA cell is "" and a missing one is the
string "nan", neither of which is NaN, so the lookup is attempted and can
match a registry entry carrying the same sentinel value. -/
theorem claim_C5 :
    norm_id (some "") = "" ∧ norm_id none = "nan" ∧
      (validateRow [exC5RegBlank] [exC5RegBlank] exC5RowBlank).matchType = "Ghana Card" ∧
      (validateRow [exC5RegBlank] [exC5RegBlank] exC5RowBlank).schemeOut = "5055000000001" ∧
      (validateRow [exC5RegNan] [exC5RegNan] exC5RowNan).matchType = "Ghana Card" ∧
      (validateRow [exC5RegNan] [exC5RegNan] exC5RowNan).schemeOut = "5055000000002" := by
  decide

/-- C6 (amended): the incorrect-contribution check fires only when the scheme
identifier contains "ops" (case-insensitive).  Universally: a row whose scheme
identifier does not contain "ops" never receives an incorrect-contribution tag,
and a row with both amounts present, salary in range, a deviation beyond the
tolerance and an "ops" scheme is finalized with exactly the tag citing the
rounded expected value.  Concretely: salary 10000 with contribution 500.00 (ops
scheme) gets no incorrect-contribution tag, and with 450.00 gets the tag citing
expected GHS 500.00. -/
theorem claim_C6_amended :
    (∀ (scheme_df filtered_df : List RegEntry) (r : Row) (q : ℚ),
        containsOps r.scheme = false →
        contribTag q ∉ (validateRow scheme_df filtered_df r).status) ∧
      (∀ (scheme_df filtered_df : List RegEntry) (r : Row) (sal t2 : ℚ),
        r.salary = some sal → r.tier2 = some t2 →
        (mkRat 5398 10 ≤ sal ∧ sal ≤ 61000) →
        (mkRat 1 2 < qabs (qsub (round2 t2) (round2 (qmul sal (mkRat 5 100)))) ∧
            containsOps r.scheme = true) →
        validateRow scheme_df filtered_df r =
          flagRow (contribTag (round2 (qmul sal (mkRat 5 100)))) r) ∧
      containsOps exC6Row500.scheme = true ∧
      (validateRow [] [] exC6Row500).validationStatus = noticeTag ∧
      contribTag 500 ∉ (validateRow [] [] exC6Row500).status ∧
      (validateRow [] [] exC6Row450).validationStatus = contribTag 500 ∧
      contribTag 500 = "‚ùå FLAG: Incorrect 5% contribution (expected GHS 500.00)" := by
  refine ⟨?_, ?_, by decide, by decide, by decide, by decide, by decide⟩
  · intro sreg freg r q hops
    unfold validateRow
    cases hs : r.salary with
    | none =>
      dsimp only [flagRow]
      simp only [List.mem_singleton]
      exact contrib_ne_missing q
    | some sal =>
      cases ht2 : r.tier2 with
      | none =>
        dsimp only [flagRow]
        simp only [List.mem_singleton]
        exact contrib_ne_missing q
      | some t2 =>
        dsimp only
        split
        · split
          · next hcond => simp [hops] at hcond
          · exact contrib_not_mem_resolveRow sreg freg r q
        · dsimp only [flagRow]
          simp only [List.mem_singleton]
          exact contrib_ne_range q
  · intro sreg freg r sal t2 hsal ht2 hrange hdev
    unfold validateRow
    rw [hsal, ht2]
    dsimp only
    rw [if_pos hrange, if_pos hdev]

/-- C6 witness: the amended universal parts applied at concrete rows — a
no-"ops" scheme gets no incorrect-contribution tag, and the 450.00/"ops" row
is finalized with exactly the tag. -/
theorem claim_C6_witness :
    containsOps exC6RowX.scheme = false ∧
      contribTag 500 ∉ (validateRow [] [] exC6RowX).status ∧
      validateRow [] [] exC6Row450 =
        flagRow (contribTag (round2 (qmul 10000 (mkRat 5 100)))) exC6Row450 :=
  ⟨by decide, claim_C6_amended.1 [] [] exC6RowX 500 (by decide),
    claim_C6_amended.2.1 [] [] exC6Row450 10000 450 rfl rfl (by decide) (by decide)⟩

/-- C6 counterexample: salary 10000 with contribution 450.00 but a scheme
number not containing "ops" receives no incorrect-contribution tag. -/
theorem claim_C6_counterexample :
    exC6RowX.salary = some 10000 ∧ exC6RowX.tier2 = some 450 ∧
      containsOps exC6RowX.scheme = false ∧
      contribTag 500 ∉ (validateRow [] [] exC6RowX).status := by
  decide

/-- C7: the claim that empty-name comparisons are automatic non-matches
fails — a whitespace-only member name normalizes to "", a missing one to
"nan" (not ""), the scorer returns 100 for two empty strings, and a blank-name
row is accepted against a registry entry whose normalized name is empty. -/
theorem claim_C7 :
    sched_clean_name (some "  ") = "" ∧
      sched_clean_name none = "nan" ∧
      reg_clean_name none none none = "" ∧
      token_sort_ratio "" "" = 100 ∧
      (validateRow [exC7Reg] [exC7Reg] exC7Row).matchType = "Ghana Card" ∧
      (validateRow [exC7Reg] [exC7Reg] exC7Row).schemeOut = "1010999999999" := by
  decide

/-- C2 (amended): for a row that passes the business checks and whose direct
scheme lookup matched nothing, the fallback keys are tried in the fixed order
Ghana Card (NIA), then SSNIT, then Contact, short-circuiting at the first key
whose lookup-plus-strict-similarity succeeds; on acceptance the scheme
identifier is overwritten with the matched entry's scheme number, the match
type records the winning key, and the auto-match tag is emitted.  In
particular, when both the NIA and the Contact lookups would succeed, the NIA
match wins. -/
theorem claim_C2_amended (scheme_df filtered_df : List RegEntry) (r : Row)
    (sal t2 : ℚ)
    (hsal : r.salary = some sal) (ht2 : r.tier2 = some t2)
    (hrange : mkRat 5398 10 ≤ sal ∧ sal ≤ 61000)
    (hcontrib : ¬(mkRat 1 2 < qabs (qsub (round2 t2) (round2 (qmul sal (mkRat 5 100)))) ∧
        containsOps r.scheme = true))
    (hdirect : (directMatch scheme_df r).2.1 = none) :
    (∀ e sc,
        find_and_validate_match scheme_df (fun x => KV.str x.nia) (KV.str r.nia)
            r.clean_name strict_threshold = some (e, sc) →
        (validateRow scheme_df filtered_df r).schemeOut = e.schemeNumber ∧
          (validateRow scheme_df filtered_df r).matchType = "Ghana Card" ∧
          autoMatchTag "Ghana Card" e.clean_name ∈ (validateRow scheme_df filtered_df r).status) ∧
      (find_and_validate_match scheme_df (fun x => KV.str x.nia) (KV.str r.nia)
          r.clean_name strict_threshold = none →
        ∀ e sc,
          find_and_validate_match scheme_df (fun x => KV.str x.ssnit) (KV.str r.ssnit)
              r.clean_name strict_threshold = some (e, sc) →
          (validateRow scheme_df filtered_df r).schemeOut = e.schemeNumber ∧
            (validateRow scheme_df filtered_df r).matchType = "SSNIT" ∧
            autoMatchTag "SSNIT" e.clean_name ∈ (validateRow scheme_df filtered_df r).status) ∧
      (find_and_validate_match scheme_df (fun x => KV.str x.nia) (KV.str r.nia)
          r.clean_name strict_threshold = none →
        find_and_validate_match scheme_df (fun x => KV.str x.ssnit) (KV.str r.ssnit)
            r.clean_name strict_threshold = none →
        ∀ e sc,
          find_and_validate_match scheme_df (fun x => KV.num x.contact) (KV.num r.contact)
              r.clean_name strict_threshold = some (e, sc) →
          (validateRow scheme_df filtered_df r).schemeOut = e.schemeNumber ∧
            (validateRow scheme_df filtered_df r).matchType = "Contact" ∧
            autoMatchTag "Contact" e.clean_name ∈ (validateRow scheme_df filtered_df r).status) := by
  obtain ⟨⟨st1, m1, mt1, mism⟩, hd⟩ : ∃ p, directMatch scheme_df r = p := ⟨_, rfl⟩
  rw [hd] at hdirect
  dsimp only at hdirect
  subst hdirect
  have hmism : mism = true := (directMatch_none hd).1
  subst hmism
  have hres : validateRow scheme_df filtered_df r = resolveRow scheme_df filtered_df r := by
    unfold validateRow
    rw [hsal, ht2]
    dsimp only
    rw [if_pos hrange, if_neg hcontrib]
  have hstep : ∀ idType e sc, fallbackID scheme_df r = some (idType, e, sc) →
      validateRow scheme_df filtered_df r =
        finishRow r (st1 ++ [autoMatchTag idType e.clean_name]) (some e) idType
          e.schemeNumber := by
    intro idType e sc hf
    rw [hres]
    unfold resolveRow
    rw [hd]
    dsimp only
    rw [if_pos (by simp), hf]
  have hfinish : ∀ idType e sc, fallbackID scheme_df r = some (idType, e, sc) →
      (validateRow scheme_df filtered_df r).schemeOut = e.schemeNumber ∧
        (validateRow scheme_df filtered_df r).matchType = idType ∧
        autoMatchTag idType e.clean_name ∈ (validateRow scheme_df filtered_df r).status := by
    intro idType e sc hf
    obtain ⟨hsc, hge, _⟩ := fallbackID_eq_some hf
    have hloose : loose_threshold ≤ token_sort_ratio r.clean_name e.clean_name := by
      rw [← hsc]
      exact le_trans loose_le_strict hge
    rw [hstep idType e sc hf]
    refine ⟨finishRow_schemeOut _ _ _ _ _, finishRow_matchType _ _ _ _ _, ?_⟩
    rw [finishRow_status_no_warn _ _ _ hloose]
    exact List.mem_append_right _ (List.mem_singleton_self _)
  refine ⟨?_, ?_, ?_⟩
  · intro e sc hN
    refine hfinish "Ghana Card" e sc ?_
    unfold fallbackID
    rw [hN]
  · intro hNnone e sc hS
    refine hfinish "SSNIT" e sc ?_
    unfold fallbackID
    rw [hNnone, hS]
  · intro hNnone hSnone e sc hC
    refine hfinish "Contact" e sc ?_
    unfold fallbackID
    rw [hNnone, hSnone, hC]

/-- C2 counterexample: for a row whose NIA lookup would succeed but whose
salary is missing, the fallback never runs — the claim as stated (without the
business-check gate) is false. -/
theorem claim_C2_counterexample :
    find_and_validate_match exC2Reg (fun x => KV.str x.nia) (KV.str exC2RowX.nia)
        exC2RowX.clean_name strict_threshold = some (exC2RegN, 100) ∧
      (directMatch exC2Reg exC2RowX).2.1 = none ∧
      (validateRow exC2Reg exC2Reg exC2RowX).matchType ≠ "Ghana Card" ∧
      (validateRow exC2Reg exC2Reg exC2RowX).schemeOut ≠ exC2RegN.schemeNumber := by
  decide

/-- C2 witness: a row where both the NIA and the Contact lookups would
independently resolve, to two different entries, is resolved by the NIA
match: the scheme number is overwritten with that entry's and the match type
is Ghana Card. -/
theorem claim_C2_witness :
    (find_and_validate_match exC2Reg (fun x => KV.num x.contact) (KV.num exC2Row.contact)
          exC2Row.clean_name strict_threshold = some (exC2RegC, 100)) ∧
      ((validateRow exC2Reg exC2Reg exC2Row).schemeOut = exC2RegN.schemeNumber ∧
        (validateRow exC2Reg exC2Reg exC2Row).matchType = "Ghana Card" ∧
        autoMatchTag "Ghana Card" exC2RegN.clean_name ∈
          (validateRow exC2Reg exC2Reg exC2Row).status) :=
  ⟨by decide,
    (claim_C2_amended exC2Reg exC2Reg exC2Row 1000 50 rfl rfl (by decide) (by decide)
        (by decide)).1 exC2RegN 100 (by decide)⟩

end PPT
